import Mathlib

/-!
Shallow embedding of the crypto exchange-rates cache (src/app/main.py).

The embedding models `CryptoRatesAPI`: its mutable fields become an explicit
`CacheState`, the wall clock and the upstream HTTP outcome become parameters of
`get_exchange_rates`, and the heterogeneous Python dict returned to callers
becomes the key-value list `RDict` (so that the dict shape and the absence of
an `error` key are genuine propositions, not facts forced by typing).

Python floats (`time.time()`, rate values) are modelled as `Rat`: every claim
uses them only through order comparisons and exact literals where rational and
binary-float comparison agree.
-/

namespace CryptoRates

/-- One entry of the upstream `rates` mapping: a JSON object whose optional
fields are read with `dict.get(key, default)` in `process_rates_data`. -/
structure RawEntry where
  name? : Option String
  unit? : Option String
  value? : Option Rat
  type? : Option String
deriving DecidableEq

/-- The parsed upstream JSON body.  `rates? = none` models a body in which the
top-level key `rates` is absent (`'rates' not in raw_data`); the mapping keeps
the upstream's insertion order, as Python dicts do. -/
structure RawPayload where
  rates? : Option (List (String × RawEntry))
deriving DecidableEq

/-- The per-currency object built by `process_rates_data` (source lines 88-94). -/
structure CurrencyRate where
  name : String
  unit : String
  value : Rat
  type : String
deriving DecidableEq

/-- `rates[currency] = {'name': data.get('name', currency), ...}` -/
def processEntry (currency : String) (d : RawEntry) : CurrencyRate :=
  { name := d.name?.getD currency
    unit := d.unit?.getD "N/A"
    value := d.value?.getD 0
    type := d.type?.getD "unknown" }

/-- Comparator of `sorted(rates.items(), key=lambda x: x[1]['value'],
reverse=True)`: `a` may stand before `b` iff `a`'s value is ≥ `b`'s. -/
def rateGE (a b : String × CurrencyRate) : Prop :=
  b.2.value ≤ a.2.value

instance : DecidableRel rateGE := fun a b =>
  inferInstanceAs (Decidable (b.2.value ≤ a.2.value))

instance : IsTotal (String × CurrencyRate) rateGE :=
  ⟨fun a b => le_total b.2.value a.2.value⟩

instance : IsTrans (String × CurrencyRate) rateGE :=
  ⟨fun _ _ _ hab hbc => le_trans hbc hab⟩

/-- Python's `sorted` is a stable sort; with `reverse=True` it keeps elements
of equal key in their original relative order.  A stable insertion sort with
the reversed comparator (`orderedInsert` places the inserted element, which is
earlier in the original list, before any element it ties with) has exactly
this behaviour. -/
def sortByValueDesc (l : List (String × CurrencyRate)) : List (String × CurrencyRate) :=
  l.insertionSort rateGE

/-- Values that occur in the top-level dicts `get_exchange_rates` returns. -/
inductive RVal where
  | vrates : List (String × CurrencyRate) → RVal
  | vstr : String → RVal
  | vnat : Nat → RVal
deriving DecidableEq

/-- A Python dict as an insertion-ordered key-value list. -/
abbrev RDict := List (String × RVal)

/-- `'error' in data` -/
def hasKey (d : RDict) (k : String) : Bool :=
  d.any (fun p => p.1 == k)

/-- `data[k]` / `data.get(k)` -/
def lookupV (d : RDict) (k : String) : Option RVal :=
  (d.find? (fun p => p.1 == k)).map (·.2)

/-- `process_rates_data` (source lines 82-105).  `nowIso` stands for the
`datetime.now().isoformat()` string taken inside the function; the `.error`
case models the `ValueError` raised when the `rates` field is missing. -/
def process_rates_data (nowIso : String) (raw : RawPayload) : Except String RDict :=
  match raw.rates? with
  | none => .error "Invalid API response: missing \x27rates\x27 field"
  | some rr =>
    let rates := rr.map (fun p => (p.1, processEntry p.1 p.2))
    let sorted_rates := sortByValueDesc rates
    .ok [("rates", .vrates sorted_rates),
         ("last_updated", .vstr nowIso),
         ("total_currencies", .vnat sorted_rates.length)]

/-- The entries of a payload after per-entry processing, pre-sort. -/
def processedOf (rr : List (String × RawEntry)) : List (String × CurrencyRate) :=
  rr.map (fun p => (p.1, processEntry p.1 p.2))

/-- The snapshot dict `process_rates_data` returns on a payload whose `rates`
field is present. -/
def snapOf (nowIso : String) (rr : List (String × RawEntry)) : RDict :=
  [("rates", .vrates (sortByValueDesc (processedOf rr))),
   ("last_updated", .vstr nowIso),
   ("total_currencies", .vnat (sortByValueDesc (processedOf rr)).length)]

/-- The mutable fields of the `CryptoRatesAPI` singleton (`self.last_fetch`,
`self.cached_data`) together with the configured `self.cache_duration`. -/
structure CacheState where
  last_fetch : Rat
  cached_data : Option RDict
  cache_duration : Rat
deriving DecidableEq

/-- Python truthiness of `self.cached_data` (`None` and the empty dict are
falsy). -/
def truthy : Option RDict → Bool
  | none => false
  | some d => !d.isEmpty

/-- Outcome of the one upstream attempt `requests.get(...)` +
`raise_for_status()` + `response.json()`:
`ok` is a 2xx response with a JSON-parseable body, `exc` is any
`requests.exceptions.RequestException` — connection error, timeout, non-2xx
status raised by `raise_for_status`, or an invalid-JSON body
(`requests.exceptions.JSONDecodeError` is a `RequestException`). -/
inductive FetchOutcome where
  | ok : RawPayload → FetchOutcome
  | exc : String → FetchOutcome
deriving DecidableEq

/-- What a call to `get_exchange_rates` does towards its caller: return a
dict, or let an exception propagate out of the method. -/
inductive CallResult where
  | ret : RDict → CallResult
  | raise : String → CallResult
deriving DecidableEq

/-- Observable side effects of one call: whether the upstream request was
attempted at all, and the increments of the two `API_CALLS` counters. -/
structure CallEffects where
  requested : Bool
  success_inc : Nat
  error_inc : Nat
deriving DecidableEq

structure CallOut where
  result : CallResult
  state : CacheState
  effects : CallEffects
deriving DecidableEq

/-- `CryptoRatesAPI.get_exchange_rates` (source lines 45-80), with the wall
clock `now` (`time.time()`), the timestamp string `nowIso`
(`datetime.now().isoformat()` inside `process_rates_data`) and the upstream
outcome passed explicitly.

Only `requests.exceptions.RequestException` is caught (line 71): the
`ValueError` raised by `process_rates_data` on a body without `rates`
propagates out of the method, with `cached_data`, `last_fetch` and both
counters untouched. -/
def get_exchange_rates (st : CacheState) (now : Rat) (nowIso : String)
    (oc : FetchOutcome) : CallOut :=
  if truthy st.cached_data = true ∧ now - st.last_fetch < st.cache_duration then
    ⟨.ret (st.cached_data.getD []), st, ⟨false, 0, 0⟩⟩
  else
    match oc with
    | .ok raw =>
      match process_rates_data nowIso raw with
      | .error msg => ⟨.raise msg, st, ⟨true, 0, 0⟩⟩
      | .ok snap =>
          ⟨.ret snap, { st with cached_data := some snap, last_fetch := now },
           ⟨true, 1, 0⟩⟩
    | .exc emsg =>
      if truthy st.cached_data = true then
        ⟨.ret (st.cached_data.getD []), st, ⟨true, 0, 1⟩⟩
      else
        ⟨.ret [("error", .vstr ("Unable to fetch exchange rates: " ++ emsg))],
         st, ⟨true, 0, 1⟩⟩

/-- `GET /api/rates` (source lines 126-133): `jsonify(data)` with HTTP 200,
whatever the dict holds. -/
def api_rates_response (d : RDict) : Nat × RDict :=
  (200, d)

/-- HTTP status of `GET /` (source lines 112-123): 500 on an error dict,
200 otherwise. -/
def index_status (d : RDict) : Nat :=
  if hasKey d "error" then 500 else 200

/-- `GET /health` (source lines 136-157): status code and `status` string as
a function of what the `get_exchange_rates` call did. -/
def health_response : CallResult → Nat × String
  | .raise _ => (500, "unhealthy")
  | .ret d => (200, if hasKey d "error" then "degraded" else "healthy")

/-- The inputs of one `get_exchange_rates` call. -/
structure CallInput where
  now : Rat
  nowIso : String
  outcome : FetchOutcome

/-- Run a sequence of calls against the singleton, collecting each call's
result. -/
def runTrace (st : CacheState) : List CallInput → CacheState × List CallResult
  | [] => (st, [])
  | c :: cs =>
    let o := get_exchange_rates st c.now c.nowIso c.outcome
    let r := runTrace o.state cs
    (r.1, o.result :: r.2)

/-- States the singleton can be in: the constructor initialises
`last_fetch = 0`, `cached_data = None` with the configured ttl, and only
`get_exchange_rates` mutates the fields. -/
inductive Reachable : CacheState → Prop where
  | init (dur : Rat) : Reachable ⟨0, none, dur⟩
  | step {st : CacheState} (now : Rat) (nowIso : String) (oc : FetchOutcome) :
      Reachable st → Reachable (get_exchange_rates st now nowIso oc).state

/-- Shape of every snapshot dict `process_rates_data` can produce: exactly the
keys `rates`, `last_updated`, `total_currencies`, no `error` key, and
`total_currencies` equal to the number of rate entries. -/
def SnapInv (d : RDict) : Prop :=
  d.map Prod.fst = ["rates", "last_updated", "total_currencies"] ∧
  hasKey d "error" = false ∧
  ∃ entries nowIso,
    d = [("rates", RVal.vrates entries),
         ("last_updated", RVal.vstr nowIso),
         ("total_currencies", RVal.vnat entries.length)]

/-- The cache either holds nothing or a well-shaped snapshot. -/
def CacheInv (st : CacheState) : Prop :=
  ∀ d, st.cached_data = some d → SnapInv d

/-- A state whose cache holds a truthy, well-shaped snapshot — what holds
after the first successful fetch. -/
def GoodState (st : CacheState) : Prop :=
  truthy st.cached_data = true ∧ CacheInv st

/-- The `rates` mapping of the spec's sorting example
(`{btc: 1.0, eth: 0.066, usd: 43000.0}`), in upstream order. -/
def sampleRates : List (String × RawEntry) :=
  [("btc", ⟨some "Bitcoin", some "BTC", some 1, some "crypto"⟩),
   ("eth", ⟨some "Ether", some "ETH", some (mkRat 66 1000), some "crypto"⟩),
   ("usd", ⟨some "US Dollar", some "$", some 43000, some "fiat"⟩)]

def samplePayload : RawPayload :=
  ⟨some sampleRates⟩

/-- The snapshot dict the sample payload processes to. -/
def sampleSnap : RDict :=
  [("rates", .vrates
      [("usd", ⟨"US Dollar", "$", 43000, "fiat"⟩),
       ("btc", ⟨"Bitcoin", "BTC", 1, "crypto"⟩),
       ("eth", ⟨"Ether", "ETH", mkRat 66 1000, "crypto"⟩)]),
   ("last_updated", .vstr "T"),
   ("total_currencies", .vnat 3)]

/-- The freshly initialised singleton with the default 300s ttl. -/
def st0 : CacheState :=
  ⟨0, none, 300⟩

/-- The singleton after one successful fetch of the sample payload at t=400
(the state `get_exchange_rates st0 400 "T" (.ok samplePayload)` leaves). -/
def st1 : CacheState :=
  ⟨400, some sampleSnap, 300⟩

/-- The key order of the `rates` mapping in a `process_rates_data` result. -/
def ratesOrder : Except String RDict → List String
  | .ok d =>
    match lookupV d "rates" with
    | some (.vrates es) => es.map Prod.fst
    | _ => []
  | .error _ => []

/-- The `total_currencies` field of a `process_rates_data` result. -/
def totalOf : Except String RDict → Option Nat
  | .ok d =>
    match lookupV d "total_currencies" with
    | some (.vnat n) => some n
    | _ => none
  | .error _ => none

theorem process_rates_data_some (iso : String) (rr : List (String × RawEntry)) :
    process_rates_data iso ⟨some rr⟩ = .ok (snapOf iso rr) := rfl

theorem truthy_some {d : RDict} (h : d ≠ []) : truthy (some d) = true := by
  cases d with
  | nil => exact absurd rfl h
  | cons a t => rfl

theorem call_hit {st : CacheState} {now : Rat} {iso : String} {oc : FetchOutcome}
    (h1 : truthy st.cached_data = true) (h2 : now - st.last_fetch < st.cache_duration) :
    get_exchange_rates st now iso oc = ⟨.ret (st.cached_data.getD []), st, ⟨false, 0, 0⟩⟩ := by
  unfold get_exchange_rates
  rw [if_pos ⟨h1, h2⟩]

theorem call_miss_ok_some {st : CacheState} {now : Rat} {iso : String}
    (rr : List (String × RawEntry))
    (h : ¬ (truthy st.cached_data = true ∧ now - st.last_fetch < st.cache_duration)) :
    get_exchange_rates st now iso (.ok ⟨some rr⟩) =
      ⟨.ret (snapOf iso rr),
       { st with cached_data := some (snapOf iso rr), last_fetch := now },
       ⟨true, 1, 0⟩⟩ := by
  unfold get_exchange_rates
  rw [if_neg h]
  rfl

theorem call_miss_ok_none {st : CacheState} {now : Rat} {iso : String}
    (h : ¬ (truthy st.cached_data = true ∧ now - st.last_fetch < st.cache_duration)) :
    get_exchange_rates st now iso (.ok ⟨none⟩) =
      ⟨.raise "Invalid API response: missing \x27rates\x27 field", st, ⟨true, 0, 0⟩⟩ := by
  unfold get_exchange_rates
  rw [if_neg h]
  rfl

theorem call_miss_exc_cached {st : CacheState} {now : Rat} {iso emsg : String}
    (h : ¬ (truthy st.cached_data = true ∧ now - st.last_fetch < st.cache_duration))
    (ht : truthy st.cached_data = true) :
    get_exchange_rates st now iso (.exc emsg) =
      ⟨.ret (st.cached_data.getD []), st, ⟨true, 0, 1⟩⟩ := by
  unfold get_exchange_rates
  rw [if_neg h]
  simp only [if_pos ht]

theorem call_miss_exc_uncached {st : CacheState} {now : Rat} {iso emsg : String}
    (h : ¬ (truthy st.cached_data = true ∧ now - st.last_fetch < st.cache_duration))
    (ht : truthy st.cached_data = false) :
    get_exchange_rates st now iso (.exc emsg) =
      ⟨.ret [("error", .vstr ("Unable to fetch exchange rates: " ++ emsg))], st, ⟨true, 0, 1⟩⟩ := by
  unfold get_exchange_rates
  rw [if_neg h]
  simp only [ht, Bool.false_eq_true, if_false]

theorem requested_of_miss {st : CacheState} {now : Rat} {iso : String} (oc : FetchOutcome)
    (h : ¬ (truthy st.cached_data = true ∧ now - st.last_fetch < st.cache_duration)) :
    (get_exchange_rates st now iso oc).effects.requested = true := by
  cases oc with
  | ok raw =>
    obtain ⟨r⟩ := raw
    cases r with
    | none => rw [call_miss_ok_none h]
    | some rr => rw [call_miss_ok_some rr h]
  | exc emsg =>
    cases ht : truthy st.cached_data with
    | true => rw [call_miss_exc_cached h ht]
    | false => rw [call_miss_exc_uncached h ht]

theorem filter_orderedInsert_ne (x : String × CurrencyRate) (v : Rat)
    (hx : x.2.value ≠ v) (l : List (String × CurrencyRate)) :
    (List.orderedInsert rateGE x l).filter (fun p => p.2.value == v) =
      l.filter (fun p => p.2.value == v) := by
  induction l with
  | nil =>
    simp [List.orderedInsert, List.filter, beq_eq_false_iff_ne.mpr hx]
  | cons b t ih =>
    by_cases hb : rateGE x b
    · simp [List.orderedInsert, hb, List.filter_cons, beq_eq_false_iff_ne.mpr hx]
    · simp only [List.orderedInsert, if_neg hb, List.filter_cons]
      rw [ih]

theorem filter_orderedInsert_eq (x : String × CurrencyRate) (v : Rat)
    (hx : x.2.value = v) (l : List (String × CurrencyRate)) :
    (List.orderedInsert rateGE x l).filter (fun p => p.2.value == v) =
      x :: l.filter (fun p => p.2.value == v) := by
  induction l with
  | nil =>
    simp [List.orderedInsert, List.filter, beq_iff_eq.mpr hx]
  | cons b t ih =>
    by_cases hb : rateGE x b
    · simp [List.orderedInsert, hb, List.filter_cons, beq_iff_eq.mpr hx]
    · have hbv : b.2.value ≠ v := by
        intro hcontra
        exact hb (le_of_eq (hx ▸ hcontra))
      simp only [List.orderedInsert, if_neg hb, List.filter_cons,
        beq_eq_false_iff_ne.mpr hbv]
      rw [ih]
      simp

/-- Stability of the modelled sort: for each value, the entries carrying that
value come out in exactly their input order. -/
theorem filter_sortByValueDesc (v : Rat) (l : List (String × CurrencyRate)) :
    (sortByValueDesc l).filter (fun p => p.2.value == v) =
      l.filter (fun p => p.2.value == v) := by
  induction l with
  | nil => rfl
  | cons x t ih =>
    show (List.orderedInsert rateGE x (sortByValueDesc t)).filter _ = _
    by_cases hx : x.2.value = v
    · rw [filter_orderedInsert_eq x v hx, ih, List.filter_cons,
        if_pos (by simpa using beq_iff_eq.mpr hx)]
    · rw [filter_orderedInsert_ne x v hx, ih, List.filter_cons,
        if_neg (by simpa using beq_eq_false_iff_ne.mpr hx)]

theorem sorted_sortByValueDesc (l : List (String × CurrencyRate)) :
    List.Sorted rateGE (sortByValueDesc l) :=
  List.sorted_insertionSort rateGE l

theorem perm_sortByValueDesc (l : List (String × CurrencyRate)) :
    List.Perm (sortByValueDesc l) l :=
  List.perm_insertionSort rateGE l

theorem snapInv_snapOf (iso : String) (rr : List (String × RawEntry)) :
    SnapInv (snapOf iso rr) :=
  ⟨rfl, rfl, sortByValueDesc (processedOf rr), iso, rfl⟩

/-- Claim C1, counterexample: on a cache-miss call whose upstream response is
2xx but whose JSON body lacks the `rates` field, `get_exchange_rates` does not
convert the failure into the fallback behaviour — the `ValueError` raised by
`process_rates_data` propagates to the caller, because the `except` clause
only catches `requests.exceptions.RequestException`. -/
theorem c1_counterexample :
    (get_exchange_rates ⟨0, none, 300⟩ 1000 "T" (.ok ⟨none⟩)).result =
      .raise "Invalid API response: missing \x27rates\x27 field" := by
  decide

/-- Claim C1, amended: failures of class network error, timeout, non-2xx
status or invalid-JSON body (all `RequestException`, modelled by
`FetchOutcome.exc`) are caught inside `get_exchange_rates`, which then returns
a dict (previous snapshot or error dict) and never raises; a 2xx body whose
JSON parses but lacks the `rates` field instead raises `ValueError` out of
every cache-miss call. -/
theorem c1_amended (st : CacheState) (now : Rat) (iso : String) :
    (∀ emsg, ∃ d, (get_exchange_rates st now iso (.exc emsg)).result = .ret d) ∧
    (∀ rr, ∃ d, (get_exchange_rates st now iso (.ok ⟨some rr⟩)).result = .ret d) ∧
    (¬ (truthy st.cached_data = true ∧ now - st.last_fetch < st.cache_duration) →
      (get_exchange_rates st now iso (.ok ⟨none⟩)).result =
        .raise "Invalid API response: missing \x27rates\x27 field") := by
  refine ⟨?_, ?_, ?_⟩
  · intro emsg
    by_cases hcond : truthy st.cached_data = true ∧ now - st.last_fetch < st.cache_duration
    · exact ⟨_, by rw [call_hit hcond.1 hcond.2]⟩
    · cases ht : truthy st.cached_data with
      | false => exact ⟨_, by rw [call_miss_exc_uncached hcond ht]⟩
      | true => exact ⟨_, by rw [call_miss_exc_cached hcond ht]⟩
  · intro rr
    by_cases hcond : truthy st.cached_data = true ∧ now - st.last_fetch < st.cache_duration
    · exact ⟨_, by rw [call_hit hcond.1 hcond.2]⟩
    · exact ⟨_, by rw [call_miss_ok_some rr hcond]⟩
  · intro hcond
    rw [call_miss_ok_none hcond]

theorem c1_amended_witness :
    (∃ d, (get_exchange_rates ⟨0, none, 300⟩ 1000 "T" (.exc "boom")).result = .ret d) ∧
    (get_exchange_rates ⟨0, none, 300⟩ 1000 "T" (.ok ⟨none⟩)).result =
      .raise "Invalid API response: missing \x27rates\x27 field" :=
  ⟨(c1_amended ⟨0, none, 300⟩ 1000 "T").1 "boom",
   (c1_amended ⟨0, none, 300⟩ 1000 "T").2.2 (by decide)⟩

/-- Claim C2: when a previous snapshot exists and a cache-miss call hits an
upstream fetch failure, the call returns the previous snapshot unchanged,
leaves the whole state (in particular `last_fetch`) unchanged, and every later
call — at any time not before this one — attempts the fetch again instead of
waiting out the ttl. -/
theorem c2_stale_fallback (st : CacheState) (now : Rat) (iso emsg : String) (d : RDict)
    (hd : st.cached_data = some d) (hne : d ≠ [])
    (hstale : ¬ now - st.last_fetch < st.cache_duration) :
    (get_exchange_rates st now iso (.exc emsg)).result = .ret d ∧
    (get_exchange_rates st now iso (.exc emsg)).state = st ∧
    (get_exchange_rates st now iso (.exc emsg)).state.last_fetch = st.last_fetch ∧
    ∀ now' : Rat, now ≤ now' → ∀ (iso' : String) (oc' : FetchOutcome),
      (get_exchange_rates (get_exchange_rates st now iso (.exc emsg)).state
        now' iso' oc').effects.requested = true := by
  have ht : truthy st.cached_data = true := by rw [hd]; exact truthy_some hne
  have hcond : ¬ (truthy st.cached_data = true ∧ now - st.last_fetch < st.cache_duration) :=
    fun h => hstale h.2
  rw [call_miss_exc_cached hcond ht]
  refine ⟨by rw [hd]; rfl, rfl, rfl, ?_⟩
  intro now' hnow' iso' oc'
  exact requested_of_miss oc'
    (fun h => hstale (lt_of_le_of_lt (sub_le_sub_right hnow' st.last_fetch) h.2))

theorem c2_witness :
    (get_exchange_rates st1 800 "U" (.exc "down")).result = .ret sampleSnap ∧
    (get_exchange_rates st1 800 "U" (.exc "down")).state.last_fetch = st1.last_fetch :=
  ⟨(c2_stale_fallback st1 800 "U" "down" sampleSnap rfl (by decide)
      (by show ¬ (800 : Rat) - 400 < 300; norm_num)).1,
   (c2_stale_fallback st1 800 "U" "down" sampleSnap rfl (by decide)
      (by show ¬ (800 : Rat) - 400 < 300; norm_num)).2.2.1⟩

/-- Claim C3: a call in a state with a present, fresh snapshot returns the
cached snapshot, performs no upstream request, increments no `API_CALLS`
counter, and leaves the state unchanged; two such calls inside the ttl window
issue zero upstream requests in total (hence at most one) and return the same
snapshot. -/
theorem c3_cache_hit (st : CacheState) (now now₂ : Rat) (iso iso₂ : String)
    (oc oc₂ : FetchOutcome) (d : RDict)
    (hd : st.cached_data = some d) (hne : d ≠ [])
    (hfresh : now - st.last_fetch < st.cache_duration) :
    (get_exchange_rates st now iso oc).result = .ret d ∧
    (get_exchange_rates st now iso oc).state = st ∧
    (get_exchange_rates st now iso oc).effects = ⟨false, 0, 0⟩ ∧
    ((if (get_exchange_rates st now iso oc).effects.requested = true then 1 else 0) +
     (if (get_exchange_rates (get_exchange_rates st now iso oc).state
            now₂ iso₂ oc₂).effects.requested = true then 1 else 0) ≤ 1) ∧
    (now₂ - st.last_fetch < st.cache_duration →
      (get_exchange_rates (get_exchange_rates st now iso oc).state
        now₂ iso₂ oc₂).result = .ret d ∧
      (get_exchange_rates (get_exchange_rates st now iso oc).state
        now₂ iso₂ oc₂).effects.requested = false) := by
  have ht : truthy st.cached_data = true := by rw [hd]; exact truthy_some hne
  rw [call_hit ht hfresh]
  refine ⟨by rw [hd]; rfl, rfl, rfl, ?_, ?_⟩
  · cases hreq : (get_exchange_rates st now₂ iso₂ oc₂).effects.requested <;> simp [hreq]
  · intro hfresh₂
    rw [call_hit ht hfresh₂]
    exact ⟨by rw [hd]; rfl, rfl⟩

theorem c3_witness :
    (get_exchange_rates st1 500 "A" (.exc "x")).result = .ret sampleSnap ∧
    (get_exchange_rates (get_exchange_rates st1 500 "A" (.exc "x")).state
      600 "B" (.exc "y")).result = .ret sampleSnap ∧
    (get_exchange_rates st1 500 "A" (.exc "x")).effects = ⟨false, 0, 0⟩ :=
  ⟨(c3_cache_hit st1 500 600 "A" "B" (.exc "x") (.exc "y") sampleSnap
      rfl (by decide) (by show (500 : Rat) - 400 < 300; norm_num)).1,
   ((c3_cache_hit st1 500 600 "A" "B" (.exc "x") (.exc "y") sampleSnap
      rfl (by decide) (by show (500 : Rat) - 400 < 300; norm_num)).2.2.2.2
      (by show (600 : Rat) - 400 < 300; norm_num)).1,
   (c3_cache_hit st1 500 600 "A" "B" (.exc "x") (.exc "y") sampleSnap
      rfl (by decide) (by show (500 : Rat) - 400 < 300; norm_num)).2.2.1⟩

/-- Claim C4: with no previous snapshot, an upstream fetch failure makes
`get_exchange_rates` return the structured error dict (an `error` key carrying
a human-readable message) — a returned dict, not an exception — and the state
stays unchanged. -/
theorem c4_cold_failure (st : CacheState) (now : Rat) (iso emsg : String)
    (hd : st.cached_data = none) :
    (get_exchange_rates st now iso (.exc emsg)).result =
      .ret [("error", .vstr ("Unable to fetch exchange rates: " ++ emsg))] ∧
    hasKey [("error", .vstr ("Unable to fetch exchange rates: " ++ emsg))] "error" = true ∧
    (get_exchange_rates st now iso (.exc emsg)).state = st := by
  have ht : truthy st.cached_data = false := by rw [hd]; rfl
  have hcond : ¬ (truthy st.cached_data = true ∧ now - st.last_fetch < st.cache_duration) := by
    rw [ht]; simp
  rw [call_miss_exc_uncached hcond ht]
  exact ⟨rfl, rfl, rfl⟩

theorem c4_witness :
    (get_exchange_rates ⟨0, none, 300⟩ 1000 "T" (.exc "boom")).result =
      .ret [("error", .vstr ("Unable to fetch exchange rates: " ++ "boom"))] :=
  (c4_cold_failure ⟨0, none, 300⟩ 1000 "T" "boom" rfl).1

/-- Claim C7: a cache-miss call whose fetch succeeds transforms the payload,
overwrites the cache with the new snapshot, sets `last_fetch` to the current
time, increments the success counter only, and returns the new snapshot with
its `last_updated` taken from this call; once the ttl has elapsed after it,
the next call attempts the fetch again and, on success, returns a snapshot
with the new `last_updated`. -/
theorem c7_success_refresh (st : CacheState) (now : Rat) (iso : String)
    (rr : List (String × RawEntry))
    (hmiss : ¬ (truthy st.cached_data = true ∧ now - st.last_fetch < st.cache_duration)) :
    (get_exchange_rates st now iso (.ok ⟨some rr⟩)).result = .ret (snapOf iso rr) ∧
    (get_exchange_rates st now iso (.ok ⟨some rr⟩)).state =
      { st with cached_data := some (snapOf iso rr), last_fetch := now } ∧
    (get_exchange_rates st now iso (.ok ⟨some rr⟩)).effects = ⟨true, 1, 0⟩ ∧
    lookupV (snapOf iso rr) "last_updated" = some (.vstr iso) ∧
    (∀ now' : Rat, st.cache_duration ≤ now' - now →
      ∀ (iso' : String) (oc' : FetchOutcome),
        (get_exchange_rates (get_exchange_rates st now iso (.ok ⟨some rr⟩)).state
          now' iso' oc').effects.requested = true) ∧
    (∀ now' : Rat, st.cache_duration ≤ now' - now →
      ∀ (iso' : String) (rr' : List (String × RawEntry)),
        (get_exchange_rates (get_exchange_rates st now iso (.ok ⟨some rr⟩)).state
          now' iso' (.ok ⟨some rr'⟩)).result = .ret (snapOf iso' rr') ∧
        lookupV (snapOf iso' rr') "last_updated" = some (.vstr iso')) := by
  rw [call_miss_ok_some rr hmiss]
  refine ⟨rfl, rfl, rfl, rfl, ?_, ?_⟩
  · intro now' h' iso' oc'
    exact requested_of_miss oc' (fun h => absurd h.2 (not_lt.mpr h'))
  · intro now' h' iso' rr'
    rw [@call_miss_ok_some ⟨now, some (snapOf iso rr), st.cache_duration⟩ now' iso' rr'
      (fun h => absurd h.2 (not_lt.mpr h'))]
    exact ⟨rfl, rfl⟩

theorem c7_witness :
    (get_exchange_rates ⟨0, none, 300⟩ 400 "T" (.ok ⟨some sampleRates⟩)).result =
      .ret (snapOf "T" sampleRates) ∧
    (get_exchange_rates ⟨0, none, 300⟩ 400 "T" (.ok ⟨some sampleRates⟩)).state =
      ⟨400, some (snapOf "T" sampleRates), 300⟩ ∧
    lookupV (snapOf "T" sampleRates) "last_updated" = some (.vstr "T") :=
  ⟨(c7_success_refresh ⟨0, none, 300⟩ 400 "T" sampleRates (by decide)).1,
   (c7_success_refresh ⟨0, none, 300⟩ 400 "T" sampleRates (by decide)).2.1,
   (c7_success_refresh ⟨0, none, 300⟩ 400 "T" sampleRates (by decide)).2.2.2.1⟩

/-- Claim C8: for every dict `get_exchange_rates` returns, `/api/rates`
responds 200 with that dict as its JSON body (error dicts included), while `/`
responds 500 exactly when the dict has an `error` key and 200 otherwise. -/
theorem c8_endpoints (st : CacheState) (now : Rat) (iso : String) (oc : FetchOutcome)
    (d : RDict) (_h : (get_exchange_rates st now iso oc).result = .ret d) :
    api_rates_response d = (200, d) ∧
    (index_status d = 500 ↔ hasKey d "error" = true) ∧
    (hasKey d "error" = false → index_status d = 200) := by
  refine ⟨rfl, ?_, ?_⟩
  · unfold index_status
    by_cases hk : hasKey d "error" = true
    · simp [hk]
    · simp [hk]
  · intro hk
    unfold index_status
    simp [hk]

theorem c8_witness :
    api_rates_response [("error", .vstr ("Unable to fetch exchange rates: " ++ "boom"))] =
      (200, [("error", .vstr ("Unable to fetch exchange rates: " ++ "boom"))]) ∧
    index_status [("error", .vstr ("Unable to fetch exchange rates: " ++ "boom"))] = 500 :=
  ⟨(c8_endpoints ⟨0, none, 300⟩ 1000 "T" (.exc "boom") _ (by decide)).1,
   (c8_endpoints ⟨0, none, 300⟩ 1000 "T" (.exc "boom") _ (by decide)).2.1.mpr (by decide)⟩

/-- Claim C5: on any payload with a `rates` mapping, `process_rates_data`
returns the snapshot whose `rates` are the processed entries sorted by value
in descending order (`rateGE`-sorted), entries of equal value keeping the
upstream's relative order (the filter at each value is unchanged); on the
spec's example `{btc: 1.0, eth: 0.066, usd: 43000.0}` the order is
`[usd, btc, eth]` with `total_currencies = 3`. -/
theorem c5_sorted_stable (iso : String) (rr : List (String × RawEntry)) :
    process_rates_data iso ⟨some rr⟩ =
      .ok [("rates", .vrates (sortByValueDesc (processedOf rr))),
           ("last_updated", .vstr iso),
           ("total_currencies", .vnat (sortByValueDesc (processedOf rr)).length)] ∧
    List.Sorted rateGE (sortByValueDesc (processedOf rr)) ∧
    (∀ v : Rat,
      (sortByValueDesc (processedOf rr)).filter (fun p => p.2.value == v) =
        (processedOf rr).filter (fun p => p.2.value == v)) ∧
    ratesOrder (process_rates_data "T" samplePayload) = ["usd", "btc", "eth"] ∧
    totalOf (process_rates_data "T" samplePayload) = some 3 :=
  ⟨rfl, sorted_sortByValueDesc _, fun v => filter_sortByValueDesc v _,
   by decide, by decide⟩

/-- Claim C6: `process_rates_data` substitutes defaults for absent optional
entry fields without raising — `name` defaults to the currency code, `unit` to
`"N/A"`, `value` to `0`, `type` to `"unknown"`; in particular an entry
`{"value": 5}` becomes `{name: <code>, unit: "N/A", value: 5, type:
"unknown"}`, and a payload containing any entry with missing fields still
transforms as a whole, the processed entry appearing in the result. -/
theorem c6_defaults (c iso : String) (d : RawEntry)
    (pre post : List (String × RawEntry)) :
    processEntry c d =
      ⟨d.name?.getD c, d.unit?.getD "N/A", d.value?.getD 0, d.type?.getD "unknown"⟩ ∧
    processEntry c ⟨none, none, some 5, none⟩ = ⟨c, "N/A", 5, "unknown"⟩ ∧
    process_rates_data iso ⟨some (pre ++ (c, d) :: post)⟩ =
      .ok (snapOf iso (pre ++ (c, d) :: post)) ∧
    (c, processEntry c d) ∈ sortByValueDesc (processedOf (pre ++ (c, d) :: post)) := by
  refine ⟨rfl, rfl, rfl, ?_⟩
  rw [(perm_sortByValueDesc _).mem_iff]
  unfold processedOf
  rw [List.map_append, List.map_cons]
  exact List.mem_append_right _ (List.mem_cons_self _ _)

theorem cacheInv_step {st : CacheState} (h : CacheInv st) (now : Rat) (iso : String)
    (oc : FetchOutcome) : CacheInv (get_exchange_rates st now iso oc).state := by
  by_cases hcond : truthy st.cached_data = true ∧ now - st.last_fetch < st.cache_duration
  · rw [call_hit hcond.1 hcond.2]; exact h
  · cases oc with
    | ok raw =>
      obtain ⟨r⟩ := raw
      cases r with
      | none => rw [call_miss_ok_none hcond]; exact h
      | some rr =>
        rw [call_miss_ok_some rr hcond]
        intro d hd
        exact (Option.some.inj hd) ▸ snapInv_snapOf iso rr
    | exc emsg =>
      cases ht : truthy st.cached_data with
      | true => rw [call_miss_exc_cached hcond ht]; exact h
      | false => rw [call_miss_exc_uncached hcond ht]; exact h

theorem reach_cacheInv {st : CacheState} (h : Reachable st) : CacheInv st := by
  induction h with
  | init dur => intro d hd; exact nomatch hd
  | step now iso oc _ ih => exact cacheInv_step ih now iso oc

/-- Under a truthy, well-shaped cache, serving the cached dict serves a dict
with no `error` key. -/
theorem ret_cached_no_error {st : CacheState} (ht : truthy st.cached_data = true)
    (hinv : CacheInv st) : hasKey (st.cached_data.getD []) "error" = false := by
  cases hc : st.cached_data with
  | none => rw [hc] at ht; exact absurd ht (by decide)
  | some d => exact (hinv d hc).2.1

theorem goodState_step {st : CacheState} (h : GoodState st) (now : Rat) (iso : String)
    (oc : FetchOutcome) :
    GoodState (get_exchange_rates st now iso oc).state ∧
    (∀ d', (get_exchange_rates st now iso oc).result = .ret d' →
      hasKey d' "error" = false) := by
  obtain ⟨ht, hinv⟩ := h
  by_cases hcond : truthy st.cached_data = true ∧ now - st.last_fetch < st.cache_duration
  · rw [call_hit hcond.1 hcond.2]
    exact ⟨⟨ht, hinv⟩, fun d' hd' =>
      (CallResult.ret.inj hd') ▸ ret_cached_no_error ht hinv⟩
  · cases oc with
    | ok raw =>
      obtain ⟨r⟩ := raw
      cases r with
      | none =>
        rw [call_miss_ok_none hcond]
        exact ⟨⟨ht, hinv⟩, fun d' hd' => nomatch hd'⟩
      | some rr =>
        rw [call_miss_ok_some rr hcond]
        refine ⟨⟨rfl, ?_⟩, ?_⟩
        · intro d hd
          exact (Option.some.inj hd) ▸ snapInv_snapOf iso rr
        · intro d' hd'
          exact (CallResult.ret.inj hd') ▸ (snapInv_snapOf iso rr).2.1
    | exc emsg =>
      cases htv : truthy st.cached_data with
      | false => rw [htv] at ht; exact absurd ht (by decide)
      | true =>
        rw [call_miss_exc_cached hcond htv]
        exact ⟨⟨ht, hinv⟩, fun d' hd' =>
          (CallResult.ret.inj hd') ▸ ret_cached_no_error ht hinv⟩

theorem exc_healthy {st : CacheState} (h : GoodState st) (now : Rat) (iso emsg : String) :
    health_response (get_exchange_rates st now iso (.exc emsg)).result = (200, "healthy") := by
  obtain ⟨ht, hinv⟩ := h
  by_cases hcond : truthy st.cached_data = true ∧ now - st.last_fetch < st.cache_duration
  · rw [call_hit hcond.1 hcond.2]
    simp [health_response, ret_cached_no_error ht hinv]
  · rw [call_miss_exc_cached hcond ht]
    simp [health_response, ret_cached_no_error ht hinv]

theorem health_not_degraded {r : CallResult}
    (hr : ∀ d', r = .ret d' → hasKey d' "error" = false) :
    (health_response r).2 ≠ "degraded" := by
  cases r with
  | raise m => simp [health_response]
  | ret d => simp [health_response, hr d rfl]

theorem goodState_trace {st : CacheState} (h : GoodState st) (tr : List CallInput) :
    GoodState (runTrace st tr).1 ∧
    ∀ r ∈ (runTrace st tr).2,
      (∀ d', r = .ret d' → hasKey d' "error" = false) ∧
      (health_response r).2 ≠ "degraded" := by
  induction tr generalizing st with
  | nil => exact ⟨h, by simp [runTrace]⟩
  | cons c cs ih =>
    obtain ⟨hgood, hres⟩ := goodState_step h c.now c.nowIso c.outcome
    obtain ⟨h1, h2⟩ := ih hgood
    refine ⟨h1, ?_⟩
    intro r hr
    simp only [runTrace, List.mem_cons] at hr
    rcases hr with rfl | hr
    · exact ⟨hres, health_not_degraded hres⟩
    · exact h2 r hr

/-- Claim C9: in every reachable state, a present `cached_data` is a dict with
exactly the keys `rates`, `last_updated`, `total_currencies`, contains no
`error` key, and its `total_currencies` equals the number of entries of its
`rates` mapping. -/
theorem c9_cache_invariant (st : CacheState) (h : Reachable st) (d : RDict)
    (hd : st.cached_data = some d) : SnapInv d :=
  reach_cacheInv h d hd

theorem c9_witness :
    (get_exchange_rates st0 400 "T" (.ok samplePayload)).state = st1 ∧
    SnapInv sampleSnap :=
  ⟨by decide,
   c9_cache_invariant st1
     ((by decide : (get_exchange_rates st0 400 "T" (.ok samplePayload)).state = st1) ▸
       Reachable.step 400 "T" (.ok samplePayload) (Reachable.init 300))
     sampleSnap rfl⟩

/-- Claim C10: once a successful fetch has populated the cache (any reachable
state with `cached_data` present), no later call ever returns a dict with an
`error` key — so `/health` never reports `degraded` along any trace of calls —
and while the upstream keeps failing with caught fetch errors, `/health`
reports `healthy` with HTTP 200. -/
theorem c10_no_error_after_success (st : CacheState) (d : RDict)
    (hre : Reachable st) (hd : st.cached_data = some d) (tr : List CallInput) :
    (∀ r ∈ (runTrace st tr).2,
      (∀ d', r = .ret d' → hasKey d' "error" = false) ∧
      (health_response r).2 ≠ "degraded") ∧
    (∀ (now : Rat) (iso emsg : String),
      health_response (get_exchange_rates st now iso (.exc emsg)).result =
        (200, "healthy")) := by
  have hinv : CacheInv st := reach_cacheInv hre
  have ht : truthy st.cached_data = true := by
    rw [hd]
    apply truthy_some
    obtain ⟨hkeys, -, -⟩ := hinv d hd
    intro hnil
    rw [hnil] at hkeys
    exact nomatch hkeys
  exact ⟨(goodState_trace ⟨ht, hinv⟩ tr).2,
    fun now iso emsg => exc_healthy ⟨ht, hinv⟩ now iso emsg⟩

theorem c10_witness :
    (∀ r ∈ (runTrace st1 [⟨800, "U", .exc "down"⟩]).2,
      (∀ d', r = .ret d' → hasKey d' "error" = false) ∧
      (health_response r).2 ≠ "degraded") ∧
    (∀ (now : Rat) (iso emsg : String),
      health_response (get_exchange_rates st1 now iso (.exc emsg)).result =
        (200, "healthy")) :=
  c10_no_error_after_success st1 sampleSnap
    ((by decide : (get_exchange_rates st0 400 "T" (.ok samplePayload)).state = st1) ▸
      Reachable.step 400 "T" (.ok samplePayload) (Reachable.init 300))
    rfl [⟨800, "U", .exc "down"⟩]

end CryptoRates
